import Mathlib

/-!
Verification of the join/reconciliation logic and dashboard read path of the
international-basketball-unified repository, shallowly embedded in Lean 4.

Python floats are modelled by the rationals, Python `int(x)` by truncation
toward zero, Python `round` (banker's rounding, half to even) by `pyRound`,
Python's `None`-able values by `Option`, Python dicts (insertion-ordered,
unique keys) by association lists, and a raised exception by `Except.error`.
-/

set_option maxRecDepth 10000

namespace IBU

/-- Python `round(x)`: round half to even (banker's rounding). -/
def pyRound (q : ℚ) : ℤ :=
  let f := ⌊q⌋
  let r := q - (f : ℚ)
  if r < 1/2 then f
  else if 1/2 < r then f + 1
  else if f % 2 = 0 then f else f + 1

/-- Python `int(x)` on a float: truncation toward zero. -/
def pyTrunc (q : ℚ) : ℤ :=
  if q < 0 then ⌈q⌉ else ⌊q⌋

/-- Python `round(x, 1)`: round to one decimal place, half to even. -/
def round1 (q : ℚ) : ℚ :=
  (pyRound (10 * q) : ℚ) / 10

/-- Python `x % m` on floats (`m > 0`): `x - m * floor(x / m)`. -/
def pyFMod (x m : ℚ) : ℚ :=
  x - m * (⌊x / m⌋ : ℚ)

/-!
## Height conversion

`cm_to_feet_inches` is the EuroLeague join's converter
(src/scrapers/euroleague/join_data.py, lines 140-163):

    if not cm: return None, None
    total_inches = cm / 2.54
    feet = int(total_inches // 12)
    inches = int(round(total_inches % 12))
    if inches == 12: feet += 1; inches = 0
    return feet, inches

`int` applied to the already-integral float `total_inches // 12` is exact,
so `feet` is the floor of `total_inches / 12`.

The ESAKE join (src/scrapers/esake/join_data.py, lines 263-269) converts
inline, with truncation instead of rounding and no carry:

    if height_cm:
        total_inches = height_cm / 2.54
        height_feet = int(total_inches // 12)
        height_inches = int(total_inches % 12)
-/

def cm_to_feet_inches (cm : ℚ) : Option (ℤ × ℤ) :=
  if cm = 0 then none
  else
    let total_inches := cm / 2.54
    let feet := ⌊total_inches / 12⌋
    let inches := pyRound (pyFMod total_inches 12)
    if inches = 12 then some (feet + 1, 0) else some (feet, inches)

/-- The ESAKE join's inline height conversion (truncated inches, no carry). -/
def esakeHeightFeetInches (cm : ℚ) : Option (ℤ × ℤ) :=
  if cm = 0 then none
  else
    let total_inches := cm / 2.54
    some (⌊total_inches / 12⌋, pyTrunc (pyFMod total_inches 12))

/-- The conversion exactly as claim C3 states it for every join:
`feet = floor((cm / 2.54) / 12)`, `inches = round((cm / 2.54) mod 12)`,
carrying to `(feet + 1, 0)` when rounding produces 12. -/
def cmToFeetInchesClaim (cm : ℚ) : ℤ × ℤ :=
  let total_inches := cm / 2.54
  let feet := ⌊total_inches / 12⌋
  let inches := pyRound (pyFMod total_inches 12)
  if inches = 12 then (feet + 1, 0) else (feet, inches)

/-!
## Game performances, derived stats, win/loss results, game-log sort order
-/

/-- One player's stat line in one game, as the ESAKE/LNB join scripts build it
(src/scrapers/esake/join_data.py lines 204-248, src/scrapers/lnb/join_data.py
lines 83-127). Fields that no claim touches (steals, blocks, turnovers,
minutes) are omitted; they are copied verbatim from the box score and play no
role in any derived value. -/
structure GamePerf where
  date : Option String
  opponent : Option String
  home_away : String
  team_score : Option ℤ
  opp_score : Option ℤ
  result : String
  points : ℤ
  rebounds : ℤ
  assists : ℤ
deriving DecidableEq, Repr

/-- A player's row of a scraped box score (the fields the joins read). -/
structure BoxPlayer where
  name : String
  points : ℤ
  rebounds : ℤ
  assists : ℤ
deriving DecidableEq, Repr

/-- The ESAKE join's game-log entry for a home player. The Python
`home_score or 0` coincides with `Option.getD 0` on integer scores (a score
of 0 is falsy in Python but `0 or 0` is again 0). -/
def esakeHomeEntry (game_date : Option String) (home_team away_team : Option String)
    (home_score away_score : Option ℤ) (p : BoxPlayer) : GamePerf :=
  { date := game_date
    opponent := away_team
    home_away := "Home"
    team_score := home_score
    opp_score := away_score
    result := if home_score.getD 0 > away_score.getD 0 then "W" else "L"
    points := p.points
    rebounds := p.rebounds
    assists := p.assists }

/-- The ESAKE join's game-log entry for an away player. -/
def esakeAwayEntry (game_date : Option String) (home_team away_team : Option String)
    (home_score away_score : Option ℤ) (p : BoxPlayer) : GamePerf :=
  { date := game_date
    opponent := home_team
    home_away := "Away"
    team_score := away_score
    opp_score := home_score
    result := if away_score.getD 0 > home_score.getD 0 then "W" else "L"
    points := p.points
    rebounds := p.rebounds
    assists := p.assists }

/-- The LNB join builds home entries with code identical to the ESAKE join
(src/scrapers/lnb/join_data.py lines 83-104). -/
def lnbHomeEntry (game_date : Option String) (home_team away_team : Option String)
    (home_score away_score : Option ℤ) (p : BoxPlayer) : GamePerf :=
  { date := game_date
    opponent := away_team
    home_away := "Home"
    team_score := home_score
    opp_score := away_score
    result := if home_score.getD 0 > away_score.getD 0 then "W" else "L"
    points := p.points
    rebounds := p.rebounds
    assists := p.assists }

/-- The LNB join builds away entries with code identical to the ESAKE join
(src/scrapers/lnb/join_data.py lines 106-127). -/
def lnbAwayEntry (game_date : Option String) (home_team away_team : Option String)
    (home_score away_score : Option ℤ) (p : BoxPlayer) : GamePerf :=
  { date := game_date
    opponent := home_team
    home_away := "Away"
    team_score := away_score
    opp_score := home_score
    result := if away_score.getD 0 > home_score.getD 0 then "W" else "L"
    points := p.points
    rebounds := p.rebounds
    assists := p.assists }

/-- Lexicographic `≤` on strings as lists of characters, by code point: the
comparison CPython's `str` ordering performs when `list.sort` compares date
keys. -/
def charListLe : List Char → List Char → Bool
  | [], _ => true
  | _ :: _, [] => false
  | a :: as, b :: bs => if a = b then charListLe as bs else decide (a < b)

/-- Totality of the code-point lexicographic comparison. -/
theorem charListLe_total : ∀ as bs : List Char, charListLe as bs = true ∨ charListLe bs as = true
  | [], _ => Or.inl rfl
  | _ :: _, [] => Or.inr rfl
  | a :: as, b :: bs => by
    by_cases hab : a = b
    · subst hab
      simpa [charListLe] using charListLe_total as bs
    · rcases lt_or_gt_of_ne hab with h | h
      · exact Or.inl (by simp [charListLe, hab, h])
      · exact Or.inr (by simp [charListLe, Ne.symm hab, h])

/-- Transitivity of the code-point lexicographic comparison. -/
theorem charListLe_trans :
    ∀ as bs cs : List Char,
      charListLe as bs = true → charListLe bs cs = true → charListLe as cs = true
  | [], _, _, _, _ => rfl
  | a :: as, b :: bs, [], h₁, h₂ => by simp [charListLe] at h₂
  | a :: as, [], cs, h₁, _ => by simp [charListLe] at h₁
  | a :: as, b :: bs, c :: cs, h₁, h₂ => by
    by_cases hab : a = b <;> by_cases hbc : b = c
    · subst hab; subst hbc
      simp only [charListLe, if_pos rfl] at h₁ h₂ ⊢
      exact charListLe_trans as bs cs h₁ h₂
    · subst hab
      simp only [charListLe, if_pos rfl] at h₁
      simp only [charListLe, if_neg hbc] at h₂ ⊢
      exact h₂
    · subst hbc
      simp only [charListLe, if_pos rfl] at h₂
      simp only [charListLe, if_neg hab] at h₁ ⊢
      exact h₁
    · simp only [charListLe, if_neg hab] at h₁
      simp only [charListLe, if_neg hbc] at h₂
      have hac : a < c := lt_trans (of_decide_eq_true h₁) (of_decide_eq_true h₂)
      simp [charListLe, ne_of_lt hac, hac]

/-- The sort key of `player_games[name].sort(key=lambda x: x.get('date') or '',
reverse=True)`: the date string, with a missing date replaced by `''`. -/
def gameDateKey (g : GamePerf) : String := g.date.getD ""

/-- The ordering realized by Python's stable `sort(key=..., reverse=True)`:
`a` may precede `b` exactly when the key of `a` is at least the key of `b`. -/
def dateDescOrder (a b : GamePerf) : Prop :=
  charListLe (gameDateKey b).data (gameDateKey a).data = true

instance : DecidableRel dateDescOrder := fun a b =>
  inferInstanceAs (Decidable (charListLe (gameDateKey b).data (gameDateKey a).data = true))

instance : IsTotal GamePerf dateDescOrder :=
  ⟨fun a b => charListLe_total (gameDateKey b).data (gameDateKey a).data⟩

instance : IsTrans GamePerf dateDescOrder :=
  ⟨fun _ _ _ hab hbc => charListLe_trans _ _ _ hbc hab⟩

/-- `game_log.sort(key=lambda x: x.get('date') or '', reverse=True)` of the
ESAKE/LNB/LBA joins: a stable sort, descending by date key. Insertion sort is
stable, so it produces the same list as CPython's stable sort. -/
def sortGameLog (log : List GamePerf) : List GamePerf :=
  List.insertionSort dateDescOrder log

/-- Sum of the points over a game log (`sum(g.get('points', 0) for g in game_log)`). -/
def sumPoints (log : List GamePerf) : ℤ := (log.map GamePerf.points).sum

/-- Sum of the rebounds over a game log. -/
def sumRebounds (log : List GamePerf) : ℤ := (log.map GamePerf.rebounds).sum

/-- Sum of the assists over a game log. -/
def sumAssists (log : List GamePerf) : ℤ := (log.map GamePerf.assists).sum

/-- The season-average fields of a unified player record. -/
structure SeasonAverages where
  games_played : ℕ
  ppg : ℚ
  rpg : ℚ
  apg : ℚ
deriving DecidableEq, Repr

/-- The ESAKE join's stats derivation (src/scrapers/esake/join_data.py lines
298-329; the LNB join repeats it verbatim at lines 162-193):

    games_played = len(game_log)
    ppg = sum(g.get('points', 0) for g in game_log) / games_played if games_played > 0 else 0
    ... 'ppg': round(ppg, 1), ...
-/
def esakeSeasonAverages (game_log : List GamePerf) : SeasonAverages :=
  let games_played := game_log.length
  let ppg : ℚ := if 0 < games_played then (sumPoints game_log : ℚ) / games_played else 0
  let rpg : ℚ := if 0 < games_played then (sumRebounds game_log : ℚ) / games_played else 0
  let apg : ℚ := if 0 < games_played then (sumAssists game_log : ℚ) / games_played else 0
  { games_played := games_played
    ppg := round1 ppg
    rpg := round1 rpg
    apg := round1 apg }

/-- One record of the EuroLeague season-stats source file, as stored in
`stats_lookup` (src/scrapers/euroleague/join_data.py lines 253-267). -/
structure EuroStatsRecord where
  games_played : ℕ
  ppg : ℚ
  rpg : ℚ
  apg : ℚ
deriving DecidableEq, Repr

/-- The EuroLeague join's season-stat fields (src/scrapers/euroleague/join_data.py
lines 388-391): taken from the independently scraped stats source when its
record exists, else `games_played` falls back to the game-log length and the
averages default to 0.

    'games_played': stats.get('games_played', len(games)),
    'ppg': stats.get('ppg', 0), 'rpg': stats.get('rpg', 0), 'apg': stats.get('apg', 0),
-/
def euroSeasonFields (stats : Option EuroStatsRecord) (games : List GamePerf) : SeasonAverages :=
  match stats with
  | some s => { games_played := s.games_played, ppg := s.ppg, rpg := s.rpg, apg := s.apg }
  | none => { games_played := games.length, ppg := 0, rpg := 0, apg := 0 }

def exampleNoDateGame : GamePerf :=
  { date := none, opponent := some "Barcelona", home_away := "Home",
    team_score := some 70, opp_score := some 80, result := "L",
    points := 5, rebounds := 1, assists := 1 }

def exampleJanGame : GamePerf :=
  { date := some "2025-01-05", opponent := some "Barcelona", home_away := "Home",
    team_score := some 90, opp_score := some 80, result := "W",
    points := 10, rebounds := 2, assists := 3 }

def exampleFebGame : GamePerf :=
  { date := some "2025-02-11", opponent := some "Barcelona", home_away := "Away",
    team_score := some 85, opp_score := some 82, result := "W",
    points := 12, rebounds := 4, assists := 2 }

/-- C5, counterexample: the claim places a missing-date entry first in the
descending order, but the empty-string key is the minimal key, so the sort
places it last: sorting a game with no date before a dated game swaps them. -/
theorem c5_sort_counterexample :
    sortGameLog [exampleNoDateGame, exampleJanGame] = [exampleJanGame, exampleNoDateGame]
    ∧ exampleNoDateGame.date = none
    ∧ ([exampleJanGame, exampleNoDateGame] : List GamePerf) ≠ [exampleNoDateGame, exampleJanGame] := by
  refine ⟨by decide, rfl, by decide⟩

/-- C5, amended: the game-log and past-games lists are a permutation of the
input sorted in descending lexicographic order of the ISO date string, with a
missing date treated as the empty string — and therefore placed last in the
descending order; two past games on different dates appear most-recent-first
(final conjunct: the later February game precedes the January game). -/
theorem c5_sort_amended (log : List GamePerf) :
    (sortGameLog log).Perm log
    ∧ List.Sorted dateDescOrder (sortGameLog log)
    ∧ (∀ g : GamePerf, gameDateKey g = g.date.getD "")
    ∧ sortGameLog [exampleJanGame, exampleFebGame] = [exampleFebGame, exampleJanGame] := by
  refine ⟨List.perm_insertionSort _ _, List.sorted_insertionSort _ _, fun _ => rfl, by decide⟩

/-- C10: in the ESAKE and LNB joins every constructed game-log entry has
result "W" exactly when the player's team score strictly exceeds the
opponent's, with a missing score treated as 0; the LNB entry builders equal
the ESAKE ones; a tied game is recorded "L", and a game with both scores
absent is recorded "L". -/
theorem c10_result_rule (d : Option String) (ht aw : Option String)
    (hs as : Option ℤ) (p : BoxPlayer) :
    ((esakeHomeEntry d ht aw hs as p).result = "W" ↔ as.getD 0 < hs.getD 0)
    ∧ ((esakeAwayEntry d ht aw hs as p).result = "W" ↔ hs.getD 0 < as.getD 0)
    ∧ (lnbHomeEntry d ht aw hs as p = esakeHomeEntry d ht aw hs as p)
    ∧ (lnbAwayEntry d ht aw hs as p = esakeAwayEntry d ht aw hs as p)
    ∧ (hs.getD 0 = as.getD 0 → (esakeHomeEntry d ht aw hs as p).result = "L"
        ∧ (esakeAwayEntry d ht aw hs as p).result = "L")
    ∧ (esakeHomeEntry d ht aw none none p).result = "L"
    ∧ (esakeAwayEntry d ht aw none none p).result = "L" := by
  refine ⟨?_, ?_, rfl, rfl, ?_, ?_, ?_⟩
  · simp only [esakeHomeEntry, gt_iff_lt]
    split_ifs with h
    · simpa using h
    · simpa using h
  · simp only [esakeAwayEntry, gt_iff_lt]
    split_ifs with h
    · simpa using h
    · simpa using h
  · intro h
    constructor
    · simp [esakeHomeEntry, h]
    · simp [esakeAwayEntry, h]
  · simp [esakeHomeEntry]
  · simp [esakeAwayEntry]



/-- C3, amended: for every positive `cm` the EuroLeague join's
`cm_to_feet_inches` returns exactly the claimed formula — `feet =
floor((cm/2.54)/12)`, `inches = round((cm/2.54) mod 12)`, carrying to
`(feet+1, 0)` on a rounded 12 — and 196 cm yields 6 ft 5 in under both the
EuroLeague conversion and the ESAKE join's truncating inline conversion. -/
theorem c3_height_amended (cm : ℚ) (h : 0 < cm) :
    cm_to_feet_inches cm = some (cmToFeetInchesClaim cm)
    ∧ cm_to_feet_inches 196 = some (6, 5)
    ∧ esakeHeightFeetInches 196 = some (6, 5) := by
  refine ⟨?_, ?_, ?_⟩
  · simp only [cm_to_feet_inches, cmToFeetInchesClaim, if_neg h.ne']
    split_ifs <;> rfl
  · norm_num [cm_to_feet_inches, pyRound, pyFMod]
  · norm_num [esakeHeightFeetInches, pyTrunc, pyFMod]

/-- C3, witness: the amended theorem applied at the concrete height 196 cm. -/
theorem c3_height_witness :
    cm_to_feet_inches 196 = some (cmToFeetInchesClaim 196)
    ∧ cm_to_feet_inches 196 = some (6, 5)
    ∧ esakeHeightFeetInches 196 = some (6, 5) :=
  c3_height_amended 196 (by norm_num)

/-- C3, counterexample: at 182 cm the ESAKE join's inline conversion (cited
by the claim) produces 5 ft 11 in, while the claimed round-and-carry formula
produces 6 ft 0 in. -/
theorem c3_height_counterexample :
    esakeHeightFeetInches 182 = some (5, 11)
    ∧ cmToFeetInchesClaim 182 = (6, 0)
    ∧ some ((5 : ℤ), (11 : ℤ)) ≠ some ((6 : ℤ), (0 : ℤ)) := by
  refine ⟨?_, ?_, by decide⟩
  · norm_num [esakeHeightFeetInches, pyTrunc, pyFMod]
  · norm_num [cmToFeetInchesClaim, pyRound, pyFMod]

def twentyPointGame : GamePerf :=
  { date := some "2026-01-03", opponent := some "Olimpia Milano", home_away := "Home",
    team_score := some 80, opp_score := some 75, result := "W",
    points := 20, rebounds := 4, assists := 2 }

/-- C1, counterexample: in the EuroLeague join a player whose stats-source
record is absent gets ppg 0 even when the game log holds one 20-point game,
whose arithmetic mean rounded to one decimal is 20 — an independently sourced
stat value diverging from the game log. -/
theorem c1_averages_counterexample :
    (euroSeasonFields none [twentyPointGame]).ppg = 0
    ∧ round1 ((sumPoints [twentyPointGame] : ℚ) / (([twentyPointGame] : List GamePerf).length : ℚ)) = 20
    ∧ (0 : ℚ) ≠ 20 := by
  refine ⟨rfl, ?_, by norm_num⟩
  norm_num [sumPoints, round1, pyRound, twentyPointGame]

/-- C1, amended: in the ESAKE join (and the identical LNB code) ppg/rpg/apg
equal the arithmetic mean of points/rebounds/assists over the game log
rounded to one decimal place, exactly 0.0 with no division when the log is
empty; in the EuroLeague join the averages are copied from the separate
season-stats source when its record exists and default to 0 otherwise, so
they are not derived from the game log and can diverge from it. -/
theorem c1_averages_amended (log : List GamePerf) (s : EuroStatsRecord) :
    (esakeSeasonAverages log).ppg
        = round1 (if log.length = 0 then 0 else (sumPoints log : ℚ) / (log.length : ℚ))
    ∧ (esakeSeasonAverages log).rpg
        = round1 (if log.length = 0 then 0 else (sumRebounds log : ℚ) / (log.length : ℚ))
    ∧ (esakeSeasonAverages log).apg
        = round1 (if log.length = 0 then 0 else (sumAssists log : ℚ) / (log.length : ℚ))
    ∧ (esakeSeasonAverages log).games_played = log.length
    ∧ esakeSeasonAverages [] = { games_played := 0, ppg := 0, rpg := 0, apg := 0 }
    ∧ euroSeasonFields (some s) log
        = { games_played := s.games_played, ppg := s.ppg, rpg := s.rpg, apg := s.apg }
    ∧ euroSeasonFields none log
        = { games_played := log.length, ppg := 0, rpg := 0, apg := 0 } := by
  refine ⟨?_, ?_, ?_, rfl, ?_, rfl, rfl⟩
  · rcases Nat.eq_zero_or_pos log.length with h | h
    · simp [esakeSeasonAverages, h]
    · simp [esakeSeasonAverages, h, Nat.pos_iff_ne_zero.mp h]
  · rcases Nat.eq_zero_or_pos log.length with h | h
    · simp [esakeSeasonAverages, h]
    · simp [esakeSeasonAverages, h, Nat.pos_iff_ne_zero.mp h]
  · rcases Nat.eq_zero_or_pos log.length with h | h
    · simp [esakeSeasonAverages, h]
    · simp [esakeSeasonAverages, h, Nat.pos_iff_ne_zero.mp h]
  · norm_num [esakeSeasonAverages, round1, pyRound]


/-!
## Greek-to-Latin transliteration and name normalization (ESAKE join)

src/scrapers/esake/join_data.py lines 42-83.
-/

/-- Python whitespace (the characters `\s` matches on the ASCII text that
reaches `normalize_name` after transliteration, and that `str.split()` and
`str.strip()` treat as separators). -/
def isPyWs (c : Char) : Bool :=
  c = ' ' || c = '\t' || c = '\n' || c = '\r' || c.toNat = 11 || c.toNat = 12

/-- Python `str.replace(pat, rep)` on lists of characters: left-to-right,
non-overlapping. The recursion is driven by a fuel counter so that it is
structural (and hence evaluates inside the kernel); each step consumes at
least one character, so fuel equal to the length of the scanned list never
runs out. -/
def replaceCharsGo (pat rep : List Char) : ℕ → List Char → List Char
  | _, [] => []
  | 0, s => s
  | fuel + 1, c :: rest =>
    if pat ≠ [] ∧ pat.isPrefixOf (c :: rest) then
      rep ++ replaceCharsGo pat rep fuel (rest.drop (pat.length - 1))
    else
      c :: replaceCharsGo pat rep fuel rest

/-- Python `str.replace(pat, rep)` on lists of characters. -/
def replaceChars (pat rep s : List Char) : List Char :=
  replaceCharsGo pat rep s.length s

/-- Python `s.replace(pat, rep)`. -/
def pyReplace (s pat rep : String) : String :=
  ⟨replaceChars pat.data rep.data s.data⟩

/-- Python `s.strip()`: drop leading and trailing whitespace. -/
def pyStrip (s : String) : String :=
  ⟨((s.data.dropWhile isPyWs).reverse.dropWhile isPyWs).reverse⟩

/-- Python `s.split()`: maximal runs of non-whitespace characters.
`acc` accumulates the current word in reverse. -/
def pySplitAux (acc : List Char) : List Char → List (List Char)
  | [] => if acc = [] then [] else [acc.reverse]
  | c :: rest =>
    if isPyWs c then
      if acc = [] then pySplitAux [] rest else acc.reverse :: pySplitAux [] rest
    else
      pySplitAux (c :: acc) rest

/-- Python `s.split()` producing strings. -/
def pySplit (s : String) : List String :=
  (pySplitAux [] s.data).map fun w => ⟨w⟩

/-- `GREEK_TO_LATIN` traversed as `sorted(GREEK_TO_LATIN.items(), key=lambda
x: -len(x[0]))` traverses it: Python's sort is stable, so the two-character
keys come first in dict insertion order (the digraph block at the end of the
literal), then the one-character keys in dict insertion order. -/
def GREEK_TO_LATIN_SORTED : List (String × String) :=
  [("ΓΚ", "G"), ("γκ", "g"), ("ΜΠ", "B"), ("μπ", "b"), ("ΝΤ", "D"), ("ντ", "d"),
   ("ΟΥ", "U"), ("ου", "u"), ("ΑΙ", "E"), ("αι", "e"), ("ΕΙ", "I"), ("ει", "i"),
   ("ΟΙ", "I"), ("οι", "i"), ("ΑΥ", "AV"), ("αυ", "av"), ("ΕΥ", "EV"), ("ευ", "ev"),
   ("Α", "A"), ("Β", "V"), ("Γ", "G"), ("Δ", "D"), ("Ε", "E"), ("Ζ", "Z"), ("Η", "I"),
   ("Θ", "TH"), ("Ι", "I"), ("Κ", "K"), ("Λ", "L"), ("Μ", "M"), ("Ν", "N"), ("Ξ", "X"),
   ("Ο", "O"), ("Π", "P"), ("Ρ", "R"), ("Σ", "S"), ("Τ", "T"), ("Υ", "Y"), ("Φ", "F"),
   ("Χ", "CH"), ("Ψ", "PS"), ("Ω", "O"),
   ("α", "a"), ("β", "v"), ("γ", "g"), ("δ", "d"), ("ε", "e"), ("ζ", "z"), ("η", "i"),
   ("θ", "th"), ("ι", "i"), ("κ", "k"), ("λ", "l"), ("μ", "m"), ("ν", "n"), ("ξ", "x"),
   ("ο", "o"), ("π", "p"), ("ρ", "r"), ("σ", "s"), ("ς", "s"), ("τ", "t"), ("υ", "y"),
   ("φ", "f"), ("χ", "ch"), ("ψ", "ps"), ("ω", "o")]

/-- `transliterate_greek` (src/scrapers/esake/join_data.py lines 59-71):
apply every replacement longest-key-first, drop remaining non-ASCII
characters, strip. -/
def transliterate_greek (text : String) : String :=
  if text = "" then ""
  else
    let replaced := GREEK_TO_LATIN_SORTED.foldl (fun acc p => pyReplace acc p.1 p.2) text
    let ascii : String := ⟨replaced.data.filter fun c => c.toNat < 128⟩
    pyStrip ascii

/-- `normalize_name` (src/scrapers/esake/join_data.py lines 74-83):
transliterate, lowercase, keep only ASCII letters and whitespace
(`re.sub(r'[^a-zA-Z\s]', '', name.lower())`), collapse whitespace. -/
def normalize_name (name : String) : String :=
  if name = "" then ""
  else
    let t := transliterate_greek name
    let kept : String := ⟨(t.data.map Char.toLower).filter fun c => c.isAlpha || isPyWs c⟩
    String.intercalate " " (pySplit kept)

/-- The whitespace-separated tokens of a normalized name
(`normalize_name(x).split()`). -/
def nameParts (name : String) : List String :=
  pySplit (normalize_name name)

/-!
## Fuzzy name matching (`match_names`, src/scrapers/esake/join_data.py lines 86-138)
-/

/-- Python substring containment `needle in hay`. -/
def strContainsSub (hay needle : String) : Bool :=
  (List.range (hay.data.length + 1)).any fun i => needle.data.isPrefixOf (hay.data.drop i)

/-- The per-token-pair score of `match_names`: 2 points when one token
contains the other, else 1 point for an equal 3-character head, both only
when both tokens have at least 3 characters. -/
def tokenPairScore (eng_part greek_part : String) : ℕ :=
  if 3 ≤ eng_part.length ∧ 3 ≤ greek_part.length then
    if strContainsSub greek_part eng_part || strContainsSub eng_part greek_part then 2
    else if eng_part.data.take 3 = greek_part.data.take 3 then 1
    else 0
  else 0

/-- The last-token/first-token bonus of `match_names`: 3 points when the input
has at least two tokens, the candidate at least one, both compared tokens have
at least 3 characters, and their 4-character heads agree (the source's
`eng_last[:4] == greek_first[:4] or greek_first[:4] == eng_last[:4]` is one
condition written twice). -/
def lastFirstBonus (eng_parts greek_parts : List String) : ℕ :=
  if 2 ≤ eng_parts.length ∧ 1 ≤ greek_parts.length then
    match eng_parts.getLast?, greek_parts.head? with
    | some eng_last, some greek_first =>
      if 3 ≤ eng_last.length ∧ 3 ≤ greek_first.length then
        if eng_last.data.take 4 = greek_first.data.take 4 then 3 else 0
      else 0
    | _, _ => 0
  else 0

/-- The bonus exactly as claim C4 words it: awarded whenever the last input
token and the first candidate token agree on their first 4 characters, with
no requirement on the number of input tokens. -/
def claimBonus (eng_parts greek_parts : List String) : ℕ :=
  match eng_parts.getLast?, greek_parts.head? with
  | some eng_last, some greek_first =>
    if eng_last.data.take 4 = greek_first.data.take 4 then 3 else 0
  | _, _ => 0

/-- The total score `match_names` assigns one candidate. -/
def scoreNames (english_name greek_name : String) : ℕ :=
  let eng_parts := nameParts english_name
  let greek_parts := nameParts greek_name
  ((eng_parts.map fun e => ((greek_parts.map fun g => tokenPairScore e g).sum)).sum)
    + lastFirstBonus eng_parts greek_parts

/-- The candidate score as claim C4 words it. -/
def claimScoreNames (english_name greek_name : String) : ℕ :=
  let eng_parts := nameParts english_name
  let greek_parts := nameParts greek_name
  ((eng_parts.map fun e => ((greek_parts.map fun g => tokenPairScore e g).sum)).sum)
    + claimBonus eng_parts greek_parts

/-- The candidate loop of `match_names`, parametrized by the scoring function:
candidates whose normalized name has no tokens are skipped (`continue`), and
the running best is replaced only on a strictly greater score. -/
def bestCandidateWith (score : String → ℕ) : List String → Option String × ℕ → Option String × ℕ
  | [], acc => acc
  | greek_name :: rest, (best_match, best_score) =>
    if nameParts greek_name = [] then
      bestCandidateWith score rest (best_match, best_score)
    else
      let s := score greek_name
      if best_score < s then bestCandidateWith score rest (some greek_name, s)
      else bestCandidateWith score rest (best_match, best_score)

/-- `match_names` (src/scrapers/esake/join_data.py lines 86-138): the
highest-scoring candidate, first seen wins ties, returned only when its score
is at least 3. -/
def match_names (english_name : String) (greek_names : List String) : Option String :=
  if english_name = "" then none
  else if nameParts english_name = [] then none
  else
    let r := bestCandidateWith (scoreNames english_name) greek_names (none, 0)
    if 3 ≤ r.2 then r.1 else none

/-- `match_names` scored exactly as claim C4 words it (bonus without the
two-token requirement). -/
def claimMatchNames (english_name : String) (greek_names : List String) : Option String :=
  if english_name = "" then none
  else if nameParts english_name = [] then none
  else
    let r := bestCandidateWith (claimScoreNames english_name) greek_names (none, 0)
    if 3 ≤ r.2 then r.1 else none

/-- A candidate whose normalized name has no tokens scores 0. -/
theorem scoreNames_of_noParts (english_name g : String) (h : nameParts g = []) :
    scoreNames english_name g = 0 := by
  simp [scoreNames, lastFirstBonus, h]

/-- Characterization of the candidate loop: starting from a running best
`(bm, bs)`, either no candidate beats `bs` and the accumulator is returned
unchanged, or the result is the first candidate `w` whose score exceeds `bs`
and every later candidate's score, with every earlier candidate scoring
strictly below `w` and every later one scoring no higher. -/
theorem bestCandidateWith_spec (score : String → ℕ)
    (hsk : ∀ g, nameParts g = [] → score g = 0) :
    ∀ (keys : List String) (bm : Option String) (bs : ℕ),
      (bestCandidateWith score keys (bm, bs) = (bm, bs) ∧ ∀ k ∈ keys, score k ≤ bs)
      ∨ (∃ w pre post, keys = pre ++ w :: post
          ∧ bestCandidateWith score keys (bm, bs) = (some w, score w)
          ∧ bs < score w
          ∧ (∀ x ∈ pre, score x < score w)
          ∧ (∀ x ∈ post, score x ≤ score w)) := by
  intro keys
  induction keys with
  | nil =>
    intro bm bs
    exact Or.inl ⟨rfl, by simp⟩
  | cons g rest ih =>
    intro bm bs
    by_cases hg : nameParts g = []
    · have hg0 : score g = 0 := hsk g hg
      have hstep : bestCandidateWith score (g :: rest) (bm, bs)
          = bestCandidateWith score rest (bm, bs) := by
        simp [bestCandidateWith, hg]
      rcases ih bm bs with ⟨h1, h2⟩ | ⟨w, pre, post, hsplit, heq, hbs, hpre, hpost⟩
      · refine Or.inl ⟨hstep.trans h1, ?_⟩
        intro k hk
        rcases List.mem_cons.mp hk with rfl | hk
        · omega
        · exact h2 k hk
      · refine Or.inr ⟨w, g :: pre, post, by simp [hsplit], hstep.trans heq, hbs, ?_, hpost⟩
        intro x hx
        rcases List.mem_cons.mp hx with rfl | hx
        · omega
        · exact hpre x hx
    · by_cases hlt : bs < score g
      · have hstep : bestCandidateWith score (g :: rest) (bm, bs)
            = bestCandidateWith score rest (some g, score g) := by
          simp [bestCandidateWith, hg, hlt]
        rcases ih (some g) (score g) with ⟨h1, h2⟩ | ⟨w, pre, post, hsplit, heq, hbs, hpre, hpost⟩
        · exact Or.inr ⟨g, [], rest, rfl, hstep.trans h1, hlt, by simp, h2⟩
        · refine Or.inr ⟨w, g :: pre, post, by simp [hsplit], hstep.trans heq, by omega, ?_, hpost⟩
          intro x hx
          rcases List.mem_cons.mp hx with rfl | hx
          · omega
          · exact hpre x hx
      · have hstep : bestCandidateWith score (g :: rest) (bm, bs)
            = bestCandidateWith score rest (bm, bs) := by
          simp [bestCandidateWith, hg, hlt]
        rcases ih bm bs with ⟨h1, h2⟩ | ⟨w, pre, post, hsplit, heq, hbs, hpre, hpost⟩
        · refine Or.inl ⟨hstep.trans h1, ?_⟩
          intro k hk
          rcases List.mem_cons.mp hk with rfl | hk
          · omega
          · exact h2 k hk
        · refine Or.inr ⟨w, g :: pre, post, by simp [hsplit], hstep.trans heq, hbs, ?_, hpost⟩
          intro x hx
          rcases List.mem_cons.mp hx with rfl | hx
          · omega
          · exact hpre x hx



/-- C4, amended: `match_names` scores each candidate by awarding, per
token pair with both tokens of at least 3 characters, 2 points when one token
is a substring of the other and otherwise 1 point when their first 3
characters agree, plus a 3-point bonus only when the input has at least two
tokens, both compared tokens have at least 3 characters, and the last input
token and the first candidate token agree on their first 4 characters (the
definitions `tokenPairScore`, `lastFirstBonus`, `scoreNames`); it returns a
candidate only when its score is maximal and at least 3, and returns `none`
(without raising — it is a total function) otherwise. -/
theorem c4_matching_amended (english_name : String) (greek_names : List String)
    (greek_name : String) :
    (∀ c, match_names english_name greek_names = some c →
      c ∈ greek_names ∧ 3 ≤ scoreNames english_name c
        ∧ ∀ k ∈ greek_names, scoreNames english_name k ≤ scoreNames english_name c)
    ∧ (match_names english_name greek_names = none →
        english_name = "" ∨ nameParts english_name = []
          ∨ ∀ k ∈ greek_names, scoreNames english_name k < 3)
    ∧ (scoreNames english_name greek_name
        = ((nameParts english_name).map fun e =>
            (((nameParts greek_name).map fun g => tokenPairScore e g).sum)).sum
          + lastFirstBonus (nameParts english_name) (nameParts greek_name)) := by
  have hsk : ∀ g, nameParts g = [] → scoreNames english_name g = 0 :=
    fun g hg => scoreNames_of_noParts english_name g hg
  refine ⟨?_, ?_, rfl⟩
  · intro c h
    by_cases h1 : english_name = ""
    · simp [match_names, h1] at h
    by_cases h2 : nameParts english_name = []
    · simp [match_names, h1, h2] at h
    simp only [match_names, if_neg h1, if_neg h2] at h
    rcases bestCandidateWith_spec (scoreNames english_name) hsk greek_names none 0 with
      ⟨heq, _⟩ | ⟨w, pre, post, hsplit, heq, _, hpre, hpost⟩
    · rw [heq] at h
      simp at h
    · rw [heq] at h
      by_cases h3 : 3 ≤ scoreNames english_name w
      · simp only [if_pos h3] at h
        obtain rfl : w = c := by simpa using h
        subst hsplit
        refine ⟨by simp, h3, ?_⟩
        intro k hk
        simp only [List.mem_append, List.mem_cons] at hk
        rcases hk with hk | rfl | hk
        · exact le_of_lt (hpre k hk)
        · exact le_refl _
        · exact hpost k hk
      · simp [h3] at h
  · intro h
    by_cases h1 : english_name = ""
    · exact Or.inl h1
    by_cases h2 : nameParts english_name = []
    · exact Or.inr (Or.inl h2)
    refine Or.inr (Or.inr ?_)
    simp only [match_names, if_neg h1, if_neg h2] at h
    rcases bestCandidateWith_spec (scoreNames english_name) hsk greek_names none 0 with
      ⟨heq, hall⟩ | ⟨w, pre, post, hsplit, heq, _, hpre, hpost⟩
    · intro k hk
      have := hall k hk
      omega
    · rw [heq] at h
      by_cases h3 : 3 ≤ scoreNames english_name w
      · simp [h3] at h
      · intro k hk
        subst hsplit
        simp only [List.mem_append, List.mem_cons] at hk
        rcases hk with hk | rfl | hk
        · have := hpre k hk; omega
        · omega
        · have := hpost k hk; omega

/-- C8: `match_names` is a pure function of its two arguments, so for a
fixed input name and a fixed candidate list it returns the same result on
every invocation; and whenever it returns a candidate, every candidate seen
before it scores strictly lower while every candidate after it scores no
higher — among score ties for the highest, the first-seen candidate wins. -/
theorem c8_first_seen (english_name : String) (greek_names : List String) (c : String)
    (h : match_names english_name greek_names = some c) :
    ∃ pre post, greek_names = pre ++ c :: post
      ∧ (∀ k ∈ pre, scoreNames english_name k < scoreNames english_name c)
      ∧ (∀ k ∈ post, scoreNames english_name k ≤ scoreNames english_name c) := by
  have hsk : ∀ g, nameParts g = [] → scoreNames english_name g = 0 :=
    fun g hg => scoreNames_of_noParts english_name g hg
  by_cases h1 : english_name = ""
  · simp [match_names, h1] at h
  by_cases h2 : nameParts english_name = []
  · simp [match_names, h1, h2] at h
  simp only [match_names, if_neg h1, if_neg h2] at h
  rcases bestCandidateWith_spec (scoreNames english_name) hsk greek_names none 0 with
    ⟨heq, _⟩ | ⟨w, pre, post, hsplit, heq, _, hpre, hpost⟩
  · rw [heq] at h
    simp at h
  · rw [heq] at h
    by_cases h3 : 3 ≤ scoreNames english_name w
    · simp only [if_pos h3] at h
      obtain rfl : w = c := by simpa using h
      exact ⟨pre, post, hsplit, hpre, hpost⟩
    · simp [h3] at h

/-- C8, witness: "Smith John" and "Smith Jon" both score 7 against
"John Smith"; the tie goes to the first-seen "Smith John". -/
theorem c8_first_seen_witness :
    ∃ pre post, (["Smith John", "Smith Jon"] : List String) = pre ++ "Smith John" :: post
      ∧ (∀ k ∈ pre, scoreNames "John Smith" k < scoreNames "John Smith" "Smith John")
      ∧ (∀ k ∈ post, scoreNames "John Smith" k ≤ scoreNames "John Smith" "Smith John") :=
  c8_first_seen "John Smith" ["Smith John", "Smith Jon"] "Smith John" (by decide)

/-- C4, counterexample: the claim's bonus has no two-token requirement, so
for the one-token input "Smithers" against candidate "Smitberg" it yields
score 1 + 3 = 4 and a match; the code awards no bonus (one input token),
scores 1, and returns `none`. -/
theorem c4_matching_counterexample :
    match_names "Smithers" ["Smitberg"] = none
    ∧ claimMatchNames "Smithers" ["Smitberg"] = some "Smitberg"
    ∧ scoreNames "Smithers" "Smitberg" = 1
    ∧ claimScoreNames "Smithers" "Smitberg" = 4 := by
  refine ⟨by decide, by decide, by decide, by decide⟩

/-- The manual override table `AMERICAN_PLAYER_MAPPINGS`
(src/scrapers/esake/join_data.py lines 22-40): English display name to the
Greek box-score name patterns tried for it, in order. -/
def AMERICAN_PLAYER_MAPPINGS : List (String × List String) :=
  [("Alec Peters", ["ΠΙΤΕΡΣAΛΕΚ"]),
   ("Bryn Forbes", ["ΦΟΡΜΠΣΜΠΡAΙAΝ", "##ΦΟΡΜΠΣΜΠΡAΙAΝ"]),
   ("Darral Willis", ["ΓΟΥΙΛΙΣΝΤΑΡΑΛ", "ΓΟΥΙΛΛΙΣΝΤΑΡΑΛ"]),
   ("Daryl Macon", ["ΜΕΪΚΟΝΝΤAΡΙΛ"]),
   ("Devin Cannady", ["ΚAΝAΝΤΙΝΤΕΒΙΝ"]),
   ("Donta Hall", ["ΧΟΛΝΤΟΝΤA"]),
   ("Frank Bartley", ["ΜΠAΡΤΛΕΪΦΡAΝΚ"]),
   ("Jacob Grandison", ["ΓΚΡΑΝΤΙΣΟΝΤΖΕΪΚΟΜΠ", "ΓΚΡAΝΤΙΣΟΝΤΖΕΪΚΟΜΠ"]),
   ("Jerian Grant", ["ΓΚΡAΝΤΤΖΕΡΙAΝ"]),
   ("Jordan Davis", ["ΝΤΕΪΒΙΣΤΖΟΡΝΤΑΝ", "ΝΤΑΒΙΣΤΖΟΡΝΤΑΝ"]),
   ("Justin Wright-Foreman", ["ΡAΪΤ-ΦΟΡΕΜAΝΤΖAΣΤΙΝ"]),
   ("Kendrick Nunn", ["ΝAΝΚΕΝΤΡΙΚ"]),
   ("Kenneth Faried", ["ΦAΡΙΝΤΚΕΝΕΘ"]),
   ("Monté Morris", ["ΜΟΡΙΣΜΟΝΤΕ ΡΟΜΠΕΡΤ", "ΜΟΡΙΣΜΟΝΤΕ"]),
   ("RaiQuan Gray", ["ΓΚΡΕΙΡAΙΚΟΥAΝ"]),
   ("Rayjon Tucker", ["ΤAΚΕΡΡΕΪΤΖΟΝ", "ΤΑΚΕΡΡΕΪΤΖΟΝ"]),
   ("Sharife Cooper", ["ΚΟΥΠΕΡΣΑΡΙΦΕ", "ΚΟΥΠΕΡΣΑΡΗΦΕ"])]

/-- Python dict lookup `player_games[k]` / `k in player_games` over the
insertion-ordered `player_games` mapping (keys are unique, so the first
match is the binding). -/
def lookupGames (player_games : List (String × List GamePerf)) (k : String) :
    Option (List GamePerf) :=
  (player_games.find? fun e => e.1 == k).map Prod.snd

/-- The manual-mapping step of the ESAKE join (src/scrapers/esake/join_data.py
lines 276-283): when the player's English name is a key of the override table,
the first listed Greek pattern present in `player_games` supplies the game
log; otherwise the log stays empty. -/
def manualGameLog (mappings : List (String × List String))
    (player_games : List (String × List GamePerf)) (player_name : String) :
    List GamePerf :=
  match mappings.find? fun m => m.1 == player_name with
  | none => []
  | some m =>
    match m.2.find? fun pat => (lookupGames player_games pat).isSome with
    | none => []
    | some pat => (lookupGames player_games pat).getD []

/-- The full game-log selection of the ESAKE join
(src/scrapers/esake/join_data.py lines 272-296): manual override table first,
then exact English-name key lookup, then fuzzy matching, each consulted only
while the game log is still empty. -/
def selectGameLog (mappings : List (String × List String))
    (player_games : List (String × List GamePerf)) (player_name : String) :
    List GamePerf :=
  let g1 := manualGameLog mappings player_games player_name
  let g2 :=
    if g1.isEmpty then
      match lookupGames player_games player_name with
      | some l => l
      | none => g1
    else g1
  if g2.isEmpty then
    match match_names player_name (player_games.map Prod.fst) with
    | some k => (lookupGames player_games k).getD []
    | none => g2
  else g2

/-- The selection in the priority order claim C2 states: (1) exact
normalized-name equality, (2) the manual override table, (3) fuzzy matching. -/
def claimSelectGameLog (mappings : List (String × List String))
    (player_games : List (String × List GamePerf)) (player_name : String) :
    List GamePerf :=
  let exact :=
    match player_games.find? fun e => normalize_name e.1 == normalize_name player_name with
    | some e => e.2
    | none => []
  if exact.isEmpty then
    let manual := manualGameLog mappings player_games player_name
    if manual.isEmpty then
      match match_names player_name (player_games.map Prod.fst) with
      | some k => (lookupGames player_games k).getD []
      | none => []
    else manual
  else exact



def petersExactLog : List GamePerf :=
  [{ date := some "2025-11-02", opponent := some "Panathinaikos", home_away := "Home",
     team_score := some 77, opp_score := some 70, result := "W",
     points := 11, rebounds := 3, assists := 1 }]

def petersGreekLog : List GamePerf :=
  [{ date := some "2025-11-09", opponent := some "Olympiacos", home_away := "Away",
     team_score := some 68, opp_score := some 80, result := "L",
     points := 15, rebounds := 5, assists := 2 }]

def petersPlayerGames : List (String × List GamePerf) :=
  [("Alec Peters", petersExactLog), ("ΠΙΤΕΡΣAΛΕΚ", petersGreekLog)]

def cooperMappings : List (String × List String) :=
  [("Cooper, Sharife", ["ΚΟΥΠΕΡΣΑΡΙΦΕ"])]

def cooperLog : List GamePerf :=
  [{ date := some "2025-10-12", opponent := some "Olympiacos", home_away := "Home",
     team_score := some 80, opp_score := some 75, result := "W",
     points := 18, rebounds := 3, assists := 7 }]

def cooperPlayerGames : List (String × List GamePerf) :=
  [("ΚΟΥΠΕΡΣΑΡΙΦΕ", cooperLog)]

/-- C2, counterexample: for "Alec Peters", whose name is both an exact key
of `player_games` and a key of the override table whose Greek pattern is also
present, the join takes the override table's game log, while the claim's
priority order (exact equality first) takes the exact key's log. -/
theorem c2_priority_counterexample :
    selectGameLog AMERICAN_PLAYER_MAPPINGS petersPlayerGames "Alec Peters" = petersGreekLog
    ∧ claimSelectGameLog AMERICAN_PLAYER_MAPPINGS petersPlayerGames "Alec Peters" = petersExactLog
    ∧ petersGreekLog ≠ petersExactLog := by
  refine ⟨by decide, by decide, by decide⟩

/-- C2, amended: the ESAKE join consults the three methods in the order
(1) manual override table, (2) exact name-key equality, (3) fuzzy matching,
each lower-priority method only while the game log is still empty; and the
record named "Cooper, Sharife", with the override table mapping it to
"ΚΟΥΠΕΡΣΑΡΙΦΕ", carries the game log of that override. -/
theorem c2_priority_amended (mappings : List (String × List String))
    (player_games : List (String × List GamePerf)) (player_name : String) :
    ((manualGameLog mappings player_games player_name).isEmpty = false →
        selectGameLog mappings player_games player_name
          = manualGameLog mappings player_games player_name)
    ∧ ((manualGameLog mappings player_games player_name).isEmpty = true →
        ((lookupGames player_games player_name).getD []).isEmpty = false →
        selectGameLog mappings player_games player_name
          = (lookupGames player_games player_name).getD [])
    ∧ ((manualGameLog mappings player_games player_name).isEmpty = true →
        ((lookupGames player_games player_name).getD []).isEmpty = true →
        selectGameLog mappings player_games player_name
          = (match match_names player_name (player_games.map Prod.fst) with
             | some k => (lookupGames player_games k).getD []
             | none => []))
    ∧ selectGameLog cooperMappings cooperPlayerGames "Cooper, Sharife" = cooperLog := by
  refine ⟨?_, ?_, ?_, by decide⟩
  · intro h
    simp only [selectGameLog, h]
    simp only [Bool.false_eq_true, if_false]
    rw [if_neg]
    simp [h]
  · intro h1 h2
    have hm : manualGameLog mappings player_games player_name = [] :=
      List.isEmpty_iff.mp h1
    rcases hl : lookupGames player_games player_name with _ | l
    · rw [hl] at h2
      simp at h2
    · rw [hl] at h2
      simp only [Option.getD_some] at h2
      simp only [selectGameLog, hm, hl]
      simp [h2]
  · intro h1 h2
    have hm : manualGameLog mappings player_games player_name = [] :=
      List.isEmpty_iff.mp h1
    rcases hl : lookupGames player_games player_name with _ | l
    · simp only [selectGameLog, hm, hl]
      simp
    · rw [hl] at h2
      simp only [Option.getD_some] at h2
      have hl2 : l = [] := List.isEmpty_iff.mp h2
      simp only [selectGameLog, hm, hl, hl2]
      simp

/-!
## Team-to-games lookup (LBA and BSL joins)
-/

/-- One schedule-derived game entry bucketed by team (the fields the claims
touch; the LBA/BSL entries carry more copied-verbatim fields). -/
structure TeamGame where
  date : Option String
  opponent : Option String
  result : Option String
deriving DecidableEq, Repr

/-- Python dict lookup over a team-keyed bucket map. -/
def lookupTeam (buckets : List (String × List TeamGame)) (k : String) :
    Option (List TeamGame) :=
  (buckets.find? fun e => e.1 == k).map Prod.snd

/-- The LBA join's per-player team-games lookup
(src/scrapers/lba/join_data.py lines 331-339): exact bucket lookup for past
and upcoming games; then, only when the upcoming list is empty and the team
name is non-empty, a substring-containment fallback over the upcoming-game
keys. The past list gets no fallback.

    past_games = past_by_team.get(team_name, [])
    upcoming_games = upcoming_by_team.get(team_name, [])
    if not upcoming_games and team_name:
        for team_key in upcoming_by_team:
            if team_name in team_key or team_key in team_name:
                upcoming_games = upcoming_by_team[team_key]
                break
-/
def lbaTeamGames (past_by_team upcoming_by_team : List (String × List TeamGame))
    (team_name : String) : List TeamGame × List TeamGame :=
  let past_games := (lookupTeam past_by_team team_name).getD []
  let upcoming_games := (lookupTeam upcoming_by_team team_name).getD []
  let upcoming_games2 :=
    if upcoming_games.isEmpty ∧ team_name ≠ "" then
      match upcoming_by_team.find?
          (fun e => strContainsSub e.1 team_name || strContainsSub team_name e.1) with
      | some e => e.2
      | none => upcoming_games
    else upcoming_games
  (past_games, upcoming_games2)

/-- `TEAM_NAME_MAP` of the BSL join (src/scrapers/bsl/join_data.py lines
27-35): TheSportsDB team name to TBLStat team name. -/
def TEAM_NAME_MAP : List (String × String) :=
  [("Anadolu Efes SK", "Anadolu Efes"),
   ("Bahçeşehir Koleji SK", "Bahçeşehir Koleji"),
   ("Besiktas Basketbol", "Beşiktaş GAİN"),
   ("Büyükçekmece Basketbol", "ONVO Büyükçekmece"),
   ("Fenerbahçe Basketbol", "Fenerbahçe Beko"),
   ("Bursaspor Basketbol", "Bursaspor Basketbol")]

/-- The BSL join's per-player team-games lookup
(src/scrapers/bsl/join_data.py lines 259-268): exact bucket lookup; when both
lists come back empty, the static `TEAM_NAME_MAP` is scanned for the first
entry whose TBLStat name equals the player's team, and that entry's
TheSportsDB name is looked up instead. No substring matching is involved.

    past_games = past_by_team.get(team_name, [])
    upcoming_games = upcoming_by_team.get(team_name, [])
    if not past_games and not upcoming_games:
        for tsdb_name, bsl_name in TEAM_NAME_MAP.items():
            if bsl_name == team_name:
                past_games = past_by_team.get(tsdb_name, [])
                upcoming_games = upcoming_by_team.get(tsdb_name, [])
                break
-/
def bslTeamGames (past_by_team upcoming_by_team : List (String × List TeamGame))
    (team_name : String) : List TeamGame × List TeamGame :=
  let past_games := (lookupTeam past_by_team team_name).getD []
  let upcoming_games := (lookupTeam upcoming_by_team team_name).getD []
  if past_games.isEmpty ∧ upcoming_games.isEmpty then
    match TEAM_NAME_MAP.find? (fun e => e.2 == team_name) with
    | some e => ((lookupTeam past_by_team e.1).getD [], (lookupTeam upcoming_by_team e.1).getD [])
    | none => (past_games, upcoming_games)
  else (past_games, upcoming_games)

/-- The lookup as claim C9 states it: for the past list and the upcoming list
alike, when the exact bucket lookup yields no games, a substring-containment
fallback between the known team-name keys and the player's team name. -/
def claimTeamGames (past_by_team upcoming_by_team : List (String × List TeamGame))
    (team_name : String) : List TeamGame × List TeamGame :=
  let fallback := fun (buckets : List (String × List TeamGame)) =>
    match buckets.find?
        (fun e => strContainsSub e.1 team_name || strContainsSub team_name e.1) with
    | some e => e.2
    | none => []
  let past_games := (lookupTeam past_by_team team_name).getD []
  let upcoming_games := (lookupTeam upcoming_by_team team_name).getD []
  ((if past_games.isEmpty then fallback past_by_team else past_games),
   (if upcoming_games.isEmpty then fallback upcoming_by_team else upcoming_games))

def bresciaPastGame : TeamGame :=
  { date := some "2025-12-07", opponent := some "Virtus Bologna", result := some "W" }

def bresciaUpcomingGame : TeamGame :=
  { date := some "2026-01-18", opponent := some "Olimpia Milano", result := none }

def bresciaPastByTeam : List (String × List TeamGame) :=
  [("Germani Brescia", [bresciaPastGame])]

def bresciaUpcomingByTeam : List (String × List TeamGame) :=
  [("Germani Brescia", [bresciaUpcomingGame])]

def galatasarayPastByTeam : List (String × List TeamGame) :=
  [("Galatasaray Nef", [bresciaPastGame])]

/-- C9, counterexample: in the LBA join, a player of team "Brescia" with
schedule buckets keyed "Germani Brescia" gets an empty past-games list —
past games get no substring fallback — while the claim's lookup recovers the
past game; and in the BSL join team "Galatasaray" against a bucket
"Galatasaray Nef" gets nothing, because BSL's fallback is the static
`TEAM_NAME_MAP`, not substring containment. -/
theorem c9_team_lookup_counterexample :
    lbaTeamGames bresciaPastByTeam bresciaUpcomingByTeam "Brescia"
      = ([], [bresciaUpcomingGame])
    ∧ claimTeamGames bresciaPastByTeam bresciaUpcomingByTeam "Brescia"
      = ([bresciaPastGame], [bresciaUpcomingGame])
    ∧ (([], [bresciaUpcomingGame]) : List TeamGame × List TeamGame)
      ≠ ([bresciaPastGame], [bresciaUpcomingGame])
    ∧ bslTeamGames galatasarayPastByTeam [] "Galatasaray" = ([], [])
    ∧ claimTeamGames galatasarayPastByTeam [] "Galatasaray" = ([bresciaPastGame], []) := by
  refine ⟨by decide, by decide, by decide, by decide, by decide⟩

/-- C9, amended: games are bucketed by exact team-name equality; in the LBA
join the past list is always the exact lookup (no fallback) and only the
upcoming list, when its exact lookup is empty and the team name non-empty,
falls back to the first bucket whose key contains or is contained in the
team name; in the BSL join, when both exact lookups are empty, the fallback
re-keys both lists through the first `TEAM_NAME_MAP` entry whose TBLStat name
equals the team, with no substring matching. -/
theorem c9_team_lookup_amended (past_by_team upcoming_by_team : List (String × List TeamGame))
    (team_name : String) (e : String × List TeamGame) (m : String × String) :
    (lbaTeamGames past_by_team upcoming_by_team team_name).1
      = (lookupTeam past_by_team team_name).getD []
    ∧ (((lookupTeam upcoming_by_team team_name).getD []).isEmpty = false →
        (lbaTeamGames past_by_team upcoming_by_team team_name).2
          = (lookupTeam upcoming_by_team team_name).getD [])
    ∧ (((lookupTeam upcoming_by_team team_name).getD []).isEmpty = true → team_name ≠ "" →
        upcoming_by_team.find?
            (fun e => strContainsSub e.1 team_name || strContainsSub team_name e.1) = some e →
        (lbaTeamGames past_by_team upcoming_by_team team_name).2 = e.2)
    ∧ ((((lookupTeam past_by_team team_name).getD []).isEmpty = false
          ∨ ((lookupTeam upcoming_by_team team_name).getD []).isEmpty = false) →
        bslTeamGames past_by_team upcoming_by_team team_name
          = ((lookupTeam past_by_team team_name).getD [],
             (lookupTeam upcoming_by_team team_name).getD []))
    ∧ (((lookupTeam past_by_team team_name).getD []).isEmpty = true →
        ((lookupTeam upcoming_by_team team_name).getD []).isEmpty = true →
        TEAM_NAME_MAP.find? (fun x => x.2 == team_name) = some m →
        bslTeamGames past_by_team upcoming_by_team team_name
          = ((lookupTeam past_by_team m.1).getD [],
             (lookupTeam upcoming_by_team m.1).getD [])) := by
  refine ⟨rfl, ?_, ?_, ?_, ?_⟩
  · intro h
    simp [lbaTeamGames, h]
  · intro h1 h2 h3
    simp [lbaTeamGames, h1, h2, h3]
  · intro h
    rcases h with h | h <;> simp [bslTeamGames, h]
  · intro h1 h2 h3
    simp [bslTeamGames, h1, h2, h3]

/-!
## Dashboard read path (src/dashboard.py)

The on-disk JSON file backing a league is modelled by `JsonFile`: absent,
present but malformed (so that `json.load` raises `json.JSONDecodeError`), or
parsed. A parsed document is either a falsy JSON value such as `null`
(`LeagueDoc.nullDoc`) or an object with a `players` list and an
`export_date` (`LeagueDoc.doc`); players are reduced to their display names,
the only field the claims touch. A request handler is a function into
`Except JsonError HttpResponse`: `Except.error` is an exception escaping the
handler (which Flask turns into a 500 response).
-/

/-- A parsed league-data JSON document. -/
inductive LeagueDoc
  | nullDoc
  | doc (players : List String) (exportDate : String)
deriving DecidableEq, Repr

/-- The state of a league's data file on disk. -/
inductive JsonFile
  | missing
  | malformed
  | parsed (d : LeagueDoc)
deriving DecidableEq, Repr

/-- The exception `json.load` raises on malformed JSON. -/
inductive JsonError
  | decodeError
deriving DecidableEq, Repr

/-- An HTTP response a dashboard route produces: a redirect (Flask's
`redirect` defaults to status 302), a plain-text 404, or a rendered page
carrying the (name-sorted) player list and the export date. -/
inductive HttpResponse
  | redirect (status : ℕ) (loc : String)
  | notFound (msg : String)
  | page (players : List String) (exportDate : String)
deriving DecidableEq, Repr

/-- The league codes of the `LEAGUES` configuration (src/dashboard.py lines
16-89), with each league's display name, in insertion order. -/
def LEAGUES : List (String × String) :=
  [("euroleague", "EuroLeague"),
   ("acb", "Liga ACB"),
   ("bsl", "Turkish BSL"),
   ("cba", "Chinese Basketball Association"),
   ("nbl", "NBL Australia"),
   ("lnb", "LNB Pro A"),
   ("lba", "Lega Basket Serie A"),
   ("bbl", "Basketball Bundesliga"),
   ("esake", "Greek Basket League")]

/-- `load_league_data` (src/dashboard.py lines 92-104): `None` for an
unknown league, a placeholder document when the file does not exist, and
otherwise a bare `json.load` with no exception handling — a malformed file
raises.

    if league_code not in LEAGUES: return None
    if not os.path.exists(filepath):
        return {'players': [], 'export_date': 'No data available'}
    with open(filepath, ...) as f:
        return json.load(f)
-/
def load_league_data (fs : String → JsonFile) (league_code : String) :
    Except JsonError (Option LeagueDoc) :=
  if (LEAGUES.find? fun l => l.1 == league_code).isSome then
    match fs league_code with
    | .missing => .ok (some (.doc [] "No data available"))
    | .malformed => .error .decodeError
    | .parsed d => .ok (some d)
  else .ok none

/-- The name-sort the league page applies to the players it renders
(`sorted(players, key=lambda p: p.get('name', ''))`). -/
def sortPlayerNames (players : List String) : List String :=
  List.insertionSort (fun a b => charListLe a.data b.data = true) players

/-- `league_view` (src/dashboard.py lines 890-943), with no query filters:
unknown codes redirect to `/`; a falsy document yields the plain-text 404;
a parse exception propagates (`Except.error`); otherwise the page renders.
The template context beyond the sorted player list and export date is
display-only and omitted. -/
def league_view (fs : String → JsonFile) (league_code : String) :
    Except JsonError HttpResponse :=
  match LEAGUES.find? fun l => l.1 == league_code with
  | none => .ok (.redirect 302 "/")
  | some l =>
    match load_league_data fs league_code with
    | .error e => .error e
    | .ok none => .ok (.notFound ("No data available for " ++ l.2))
    | .ok (some .nullDoc) => .ok (.notFound ("No data available for " ++ l.2))
    | .ok (some (.doc players exportDate)) => .ok (.page (sortPlayerNames players) exportDate)

/-- The per-league player count of the home page (src/dashboard.py lines
863-872): the `json.load` and the `len(data.get('players', []))` sit inside
`try: ... except: pass`, so a malformed file — or a falsy document, whose
`.get` raises `AttributeError` — leaves the count at `None`. -/
def tryPlayerCount (f : JsonFile) : Option ℕ :=
  match f with
  | .missing => none
  | .malformed => none
  | .parsed .nullDoc => none
  | .parsed (.doc players _) => some players.length

/-- `home` (src/dashboard.py lines 857-887), reduced to the data it computes
per league; the display-only sort of the league cards and the HTML rendering
are omitted. No exception escapes: every read is inside `try/except`. -/
def home (fs : String → JsonFile) : Except JsonError (List (String × Option ℕ)) :=
  .ok (LEAGUES.map fun l => (l.1, tryPlayerCount (fs l.1)))

/-- C6, counterexample: with the league data file malformed, the
`league_view` handler's `json.load` raises and the exception escapes the
handler (`Except.error`), contradicting "never causes an unhandled exception
to escape"; the home page, whose read sits in `try/except`, swallows it. -/
theorem c6_malformed_counterexample :
    league_view (fun _ => JsonFile.malformed) "esake" = .error .decodeError
    ∧ home (fun _ => JsonFile.malformed)
        = .ok (LEAGUES.map fun l => (l.1, none)) := by
  exact ⟨rfl, rfl⟩

/-- C6, amended: only the home page's per-league count read swallows the
parse exception (the count is `none` and the route always answers); the
league page's read path has no handler, so for every configured league whose
data file is malformed the parse exception escapes the request handler. -/
theorem c6_malformed_amended (fs : String → JsonFile) (league_code : String)
    (h1 : (LEAGUES.find? fun l => l.1 == league_code).isSome = true)
    (h2 : fs league_code = JsonFile.malformed) :
    league_view fs league_code = .error .decodeError
    ∧ home fs = .ok (LEAGUES.map fun l => (l.1, tryPlayerCount (fs l.1)))
    ∧ tryPlayerCount (fs league_code) = none := by
  rcases hf : LEAGUES.find? fun l => l.1 == league_code with _ | l
  · rw [hf] at h1
    simp at h1
  · refine ⟨?_, rfl, by rw [h2]; rfl⟩
    simp [league_view, load_league_data, hf, h2]

/-- C6, witness: the amended theorem applied to the league "lba" with every
file malformed. -/
theorem c6_malformed_witness :
    league_view (fun _ => JsonFile.malformed) "lba" = .error .decodeError
    ∧ home (fun _ => JsonFile.malformed)
        = .ok (LEAGUES.map fun l => (l.1, tryPlayerCount ((fun _ => JsonFile.malformed) l.1)))
    ∧ tryPlayerCount ((fun _ => JsonFile.malformed) "lba") = none :=
  c6_malformed_amended (fun _ => JsonFile.malformed) "lba" (by decide) rfl



/-- C7, counterexample: for the configured league "esake" with its data
file missing, `league_view` renders the normal page with an empty player
list and export date "No data available" — a 200 page, not the plain-text
404 the claim requires. -/
theorem c7_missing_file_counterexample :
    league_view (fun _ => JsonFile.missing) "esake" = .ok (.page [] "No data available")
    ∧ HttpResponse.page [] "No data available"
        ≠ HttpResponse.notFound "No data available for Greek Basket League" := by
  exact ⟨rfl, by decide⟩

/-- C7, amended: every league code outside `LEAGUES` redirects to `/` with
status 302 (in particular `/league/doesnotexist`, for any state of the
files); a configured league whose data file is missing renders the page with
an empty player list, not a 404; the plain-text 404 is returned when the
file parses to a falsy JSON document such as `null`. -/
theorem c7_routes_amended (fs : String → JsonFile) (league_code : String) :
    ((LEAGUES.find? fun l => l.1 == league_code) = none →
        league_view fs league_code = .ok (.redirect 302 "/"))
    ∧ (∀ l, (LEAGUES.find? fun x => x.1 == league_code) = some l →
        fs league_code = .missing →
        league_view fs league_code = .ok (.page [] "No data available"))
    ∧ (∀ l, (LEAGUES.find? fun x => x.1 == league_code) = some l →
        fs league_code = .parsed .nullDoc →
        league_view fs league_code = .ok (.notFound ("No data available for " ++ l.2)))
    ∧ league_view fs "doesnotexist" = .ok (.redirect 302 "/") := by
  refine ⟨?_, ?_, ?_, rfl⟩
  · intro h
    simp [league_view, h]
  · intro l hf hm
    simp [league_view, load_league_data, hf, hm, sortPlayerNames]
  · intro l hf hn
    simp [league_view, load_league_data, hf, hn]

end IBU
